import Mathlib

/-!
# Verification development for juju

Shallow embedding of

* `api/credentialmanager/client.go` (`Client.InvalidateModelCredential`),
* `state/apiserver/backup.go` (`backupHandler.ServeHTTP`, `backupHandler.sendError`),
* `provider/ec2/local_test.go` (`CheckScripts`, `CheckPackage`),

together with models of the hardware selector, the image-metadata validator and
the bootstrap state store, which the ec2 tests exercise but whose code lives in
other packages.

Go library calls whose behaviour is not part of this repository (the facade
transport, `json.Marshal`, `strconv.Quote`, `os.Open`, `regexp.Compile`) are
parameters of the embedding.
-/

namespace Juju

/-! ## `api/credentialmanager/client.go` -/

namespace CredentialManager

/-- Payload of `params.Error` (the non-nil value an `ErrorResult` may carry). -/
structure ParamsError where
  Message : String
  Code : String
deriving DecidableEq, Repr

/-- Go type `params.ErrorResult`: `Error` is a pointer, `none` is the nil pointer. -/
structure ErrorResult where
  Error : Option ParamsError
deriving DecidableEq, Repr

/-- Go `error` values that flow through the client. `traced e` is the value
`errors.Trace(e)` builds around a non-nil `e`. -/
inductive GoError where
  | call (msg : String)
  | result (e : ParamsError)
  | traced (e : GoError)
deriving DecidableEq, Repr

/-- Function `errors.Trace`: nil stays nil, a non-nil error is wrapped. -/
def Trace : Option GoError → Option GoError
  | none => none
  | some e => some (GoError.traced e)

/-- One `FacadeCall` as seen by the transport: method name and argument. -/
structure Call where
  request : String
  params : String
deriving DecidableEq, Repr

/-- Go interface `base.FacadeCaller`, with the calls made so far recorded in `log`.
`respond` is the remote end: from the earlier calls, the current call and the
response value passed in by pointer it gives the returned error and the
response value left behind the pointer. -/
structure FacadeCaller where
  log : List Call
  respond : List Call → Call → ErrorResult → Option GoError × ErrorResult

/-- Method `FacadeCaller.FacadeCall(request, params, &response)`. -/
def FacadeCaller.FacadeCall (f : FacadeCaller) (request params : String) (response : ErrorResult) :
    FacadeCaller × Option GoError × ErrorResult :=
  let c : Call := ⟨request, params⟩
  let r := f.respond f.log c response
  ({ f with log := f.log ++ [c] }, r.1, r.2)

/-- Go type `Client` (only the `facade` field is used by the method below). -/
structure Client where
  facade : FacadeCaller

/-- Method `Client.InvalidateModelCredential(reason)`; returns the client after
the call together with the returned `error` (`none` is nil). -/
def Client.InvalidateModelCredential (c : Client) (reason : String) : Client × Option GoError :=
  let result : ErrorResult := ⟨none⟩
  let (facade, err, result) := c.facade.FacadeCall "InvalidateModelCredential" reason result
  let c : Client := { c with facade := facade }
  match err with
  | some e => (c, Trace (some e))
  | none =>
    match result.Error with
    | some pe => (c, Trace (some (GoError.result pe)))
    | none => (c, none)

end CredentialManager

/-! ## `state/apiserver/backup.go` -/

namespace ApiServer

abbrev Bytes := List UInt8

/-- Go type `http.Header`, as an association list with one value per key. -/
abbrev Header := List (String × String)

/-- Method `Header.Set`: replaces whatever the key held. -/
def Header.Set (h : Header) (k v : String) : Header :=
  h.filter (fun kv => kv.1 != k) ++ [(k, v)]

/-- Method `Header.Get`: the value stored under the key, `""` when there is none. -/
def Header.Get (h : Header) (k : String) : String :=
  match h.find? (fun kv => kv.1 == k) with
  | some kv => kv.2
  | none => ""

/-- What the first `WriteHeader` call put on the wire. -/
structure Sent where
  status : Nat
  header : Header
deriving DecidableEq, Repr

/-- Go interface `http.ResponseWriter`: `header` is the map `w.Header()` returns,
`sent` is the status line and header block once written, `body` the bytes
written after it. -/
structure ResponseWriter where
  header : Header
  sent : Option Sent
  body : Bytes
deriving DecidableEq, Repr

/-- Method `ResponseWriter.WriteHeader`: the first call sends the status and the
headers as they are at that moment; later calls change nothing. -/
def ResponseWriter.WriteHeader (w : ResponseWriter) (statusCode : Nat) : ResponseWriter :=
  match w.sent with
  | some _ => w
  | none => { w with sent := some ⟨statusCode, w.header⟩ }

/-- Method `ResponseWriter.Write`: sends status 200 first when no header was
written yet, then appends to the body. -/
def ResponseWriter.Write (w : ResponseWriter) (b : Bytes) : ResponseWriter :=
  let w := w.WriteHeader 200
  { w with body := w.body ++ b }

/-- Calls the handler makes on its collaborators, in order. -/
inductive Event where
  | headerSet (k v : String)
  | writeHeader (statusCode : Nat)
  | write (b : Bytes)
  | osOpen (name : String)
  | ioCopy (b : Bytes)
  | authError
deriving DecidableEq, Repr

/-- State threaded through the handler: the response writer and the calls made. -/
structure World where
  w : ResponseWriter
  trace : List Event
deriving DecidableEq, Repr

/-- Call `w.Header().Set(k, v)`. -/
def World.headerSet (s : World) (k v : String) : World :=
  { w := { s.w with header := Header.Set s.w.header k v }, trace := s.trace ++ [Event.headerSet k v] }

/-- Call `w.WriteHeader(statusCode)`. -/
def World.writeHeader (s : World) (statusCode : Nat) : World :=
  { w := s.w.WriteHeader statusCode, trace := s.trace ++ [Event.writeHeader statusCode] }

/-- Call `w.Write(b)`. -/
def World.write (s : World) (b : Bytes) : World :=
  { w := s.w.Write b, trace := s.trace ++ [Event.write b] }

/-- Call `io.Copy(w, file)` on a file holding `b`; an empty file causes no `Write`. -/
def World.ioCopy (s : World) (b : Bytes) : World :=
  { w := if b.isEmpty then s.w else s.w.Write b, trace := s.trace ++ [Event.ioCopy b] }

/-- Call `os.Open(name)`, recorded; its outcome is the handler's `osOpen`. -/
def World.osOpen (s : World) (name : String) : World :=
  { s with trace := s.trace ++ [Event.osOpen name] }

/-- Call `h.authError(w, h)`, with the effect `f` on the writer. -/
def World.authError (s : World) (f : ResponseWriter → ResponseWriter) : World :=
  { w := f s.w, trace := s.trace ++ [Event.authError] }

/-- Go type `http.Request` (the handler reads `Method`; `auth` stands for
whatever `authenticate` inspects). -/
structure Request where
  Method : String
  auth : String
deriving DecidableEq, Repr

/-- Go type `params.BackupResponse`, as constructed by `sendError`. -/
structure BackupResponse where
  Error : String
deriving DecidableEq, Repr

/-- Go type `backupHandler` with everything it calls that is defined elsewhere:
the embedded `httpHandler` methods `authenticate` and `authError`, the file
system behind `os.Open`, `json.Marshal` and the `%q` verb of `fmt.Sprintf`. -/
structure backupHandler where
  authenticate : Request → Option String
  authError : ResponseWriter → ResponseWriter
  osOpen : String → Except String Bytes
  jsonMarshal : BackupResponse → Except String Bytes
  quote : String → String

/-- Method `backupHandler.sendError(w, statusCode, message)`; the second
component is the returned `error`. -/
def backupHandler.sendError (h : backupHandler) (s : World) (statusCode : Nat) (message : String) :
    World × Option String :=
  let s := s.headerSet "Content-Type" "application/json"
  let s := s.writeHeader statusCode
  match h.jsonMarshal ⟨message⟩ with
  | .error err => (s, some err)
  | .ok body => (s.write body, none)

def StatusOK : Nat := 200
def StatusMethodNotAllowed : Nat := 405
def StatusInternalServerError : Nat := 500

/-- Method `backupHandler.ServeHTTP(w, r)`. -/
def backupHandler.ServeHTTP (h : backupHandler) (s : World) (r : Request) : World :=
  match h.authenticate r with
  | some _ => s.authError h.authError
  | none =>
    if r.Method = "POST" then
      let filename := "example"
      let s := s.headerSet "Content-Type" "application/octet-stream"
      let s := s.writeHeader StatusOK
      let s := s.osOpen filename
      match h.osOpen filename with
      | .error _ => (h.sendError s StatusInternalServerError "backup failed").1
      | .ok file => s.ioCopy file
    else
      (h.sendError s StatusMethodNotAllowed ("unsupported method: " ++ h.quote r.Method)).1

/-- A response writer as the server hands it to a handler: nothing sent yet. -/
def ResponseWriter.fresh : ResponseWriter := ⟨[], none, []⟩

/-- The state in which the server calls the handler. -/
def World.start : World := ⟨ResponseWriter.fresh, []⟩

end ApiServer

/-! ## `provider/ec2/local_test.go`: the cloud-init checkers -/

namespace Ec2Test

/-- Values of Go type `interface{}` as `goyaml.Unmarshal` produces them; `null`
is the nil interface. -/
inductive Value where
  | null
  | str (s : String)
  | int (n : Int)
  | bool (b : Bool)
  | seq (xs : List Value)
  | map (kvs : List (Value × Value))

/-- Go type `map[interface{}]interface{}` as a list of entries. -/
abbrev Doc := List (Value × Value)

/-- Map index `x[k]` with a string key: the value stored under `k`, the nil
interface when the map has no such key. -/
def Doc.index : Doc → String → Value
  | [], _ => Value.null
  | (Value.str k0, v) :: rest, k => if k0 = k then v else Doc.index rest k
  | _ :: rest, k => Doc.index rest k

/-- Ways a checker can abort instead of returning. -/
inductive Panic where
  | notASlice
  | notAString
  | badPattern (pattern : String)
deriving DecidableEq, Repr

/-- Failures recorded through `c.Errorf`, one constructor per call site, with the
arguments of the format string. -/
inductive Report where
  | noRuncmd
  | scriptNotFound (pattern : String) (scripts : List String)
  | scriptFound (pattern : String) (scripts : List String)
  | noPackages
  | packageNotFound (pkg : String) (pkgs : List String)
  | packageFound (pkg : String) (pkgs : List String)
deriving DecidableEq, Repr

/-- Type assertion `v.([]interface{})`. -/
def Value.toSlice : Value → Except Panic (List Value)
  | Value.seq xs => .ok xs
  | _ => .error Panic.notASlice

/-- Type assertion `v.(string)`. -/
def Value.toStr : Value → Except Panic String
  | Value.str s => .ok s
  | _ => .error Panic.notAString

/-- Test for `v == nil`. -/
def Value.isNil : Value → Bool
  | Value.null => true
  | _ => false

/-- Function `regexp.MustCompile`, over the library function `regexp.Compile`
given as `compile` (a compiled expression is its `MatchString`). -/
def MustCompile (compile : String → Option (String → Bool)) (pattern : String) :
    Except Panic (String → Bool) :=
  match compile pattern with
  | some re => .ok re
  | none => .error (Panic.badPattern pattern)

/-- Loop of `CheckScripts`: asserts each element to `string` and sets `found`
when the expression matches it. -/
def scanScripts (re : String → Bool) : List Value → Bool → Except Panic Bool
  | [], found => .ok found
  | s0 :: rest, found =>
    match s0.toStr with
    | .error p => .error p
    | .ok s => scanScripts re rest (if re s then true else found)

/-- Strings of a slice, for the failure message (`%q` of `scripts`). -/
def shown : List Value → List String
  | [] => []
  | Value.str s :: rest => s :: shown rest
  | _ :: rest => shown rest

/-- Function `CheckScripts(c, x, pattern, match)`: the failures it records on `c`,
or the panic that aborts it. -/
def CheckScripts (compile : String → Option (String → Bool)) (x : Doc) (pattern : String)
    (matchWanted : Bool) : Except Panic (List Report) :=
  let scripts0 := x.index "runcmd"
  if scripts0.isNil then
    .ok [Report.noRuncmd]
  else
    match scripts0.toSlice with
    | .error p => .error p
    | .ok scripts =>
      match MustCompile compile pattern with
      | .error p => .error p
      | .ok re =>
        match scanScripts re scripts false with
        | .error p => .error p
        | .ok found =>
          if matchWanted && !found then .ok [Report.scriptNotFound pattern (shown scripts)]
          else if !matchWanted && found then .ok [Report.scriptFound pattern (shown scripts)]
          else .ok []

/-- Loop of `CheckPackage`: asserts each element to `string` and sets `found`
when it equals `pkg`. -/
def scanPackages (pkg : String) : List Value → Bool → Except Panic Bool
  | [], found => .ok found
  | p0 :: rest, found =>
    match p0.toStr with
    | .error e => .error e
    | .ok p => scanPackages pkg rest (if p = pkg then true else found)

/-- Function `CheckPackage(c, x, pkg, match)`: the failures it records on `c`,
or the panic that aborts it. -/
def CheckPackage (x : Doc) (pkg : String) (matchWanted : Bool) : Except Panic (List Report) :=
  let pkgs0 := x.index "packages"
  if pkgs0.isNil then
    if matchWanted then .ok [Report.noPackages] else .ok []
  else
    match pkgs0.toSlice with
    | .error p => .error p
    | .ok pkgs =>
      match scanPackages pkg pkgs false with
      | .error p => .error p
      | .ok found =>
        if matchWanted && !found then .ok [Report.packageNotFound pkg (shown pkgs)]
        else if !matchWanted && found then .ok [Report.packageFound pkg (shown pkgs)]
        else .ok []

end Ec2Test

/-! ## The provisioning core exercised by `provider/ec2/local_test.go`

The selector, the validator, the state store and the orchestrator are defined in
other packages (`environs/instances`, `environs/imagemetadata`, `provider`,
`environs/bootstrap`); the definitions below follow the specification. -/

namespace Provisioning

/-- Modelled from the spec: the error values of the provisioning packages are
missing; these are the error kinds the specification lists. -/
inductive Error where
  | NoMatchingHardware
  | NoMatchingImages
  | NotBootstrapped
  | AlreadyBootstrapped
  | Timeout
  | BackendUnavailable
  | AuthorizationFailed
  | CorruptState
deriving DecidableEq, Repr

/-- Modelled from the spec: the type `constraints.Value` is missing; a constraint
has optional fields architecture, memory (MB), cpu-cores, cpu-power, and an
unset field is a wildcard. -/
structure Constraint where
  arch : Option String
  mem : Option Nat
  cpuCores : Option Nat
  cpuPower : Option Nat
deriving DecidableEq, Repr

/-- Modelled from the spec: the type `instance.HardwareCharacteristics` is
missing; resolved, fully populated architecture, memory, cpu-cores, cpu-power. -/
structure HardwareCharacteristics where
  arch : String
  mem : Nat
  cpuCores : Nat
  cpuPower : Nat
deriving DecidableEq, Repr

/-- Modelled from the spec: the instance-type catalog entry is missing; an entry
has a type name and its real hardware values. -/
structure InstanceType where
  name : String
  arch : String
  mem : Nat
  cpuCores : Nat
  cpuPower : Nat
deriving DecidableEq, Repr

/-- Hardware of a catalog entry. -/
def InstanceType.hardware (e : InstanceType) : HardwareCharacteristics :=
  ⟨e.arch, e.mem, e.cpuCores, e.cpuPower⟩

/-- A specified minimum is met; an unset field admits everything. -/
def atLeast : Option Nat → Nat → Bool
  | none, _ => true
  | some wanted, have_ => decide (wanted ≤ have_)

/-- A specified architecture is matched exactly; an unset one admits everything. -/
def archOk : Option String → String → Bool
  | none, _ => true
  | some wanted, have_ => decide (have_ = wanted)

/-- Modelled from the spec: the selector's filter is missing; an entry survives
when its architecture matches exactly (if specified) and its memory, cpu-cores
and cpu-power meet or exceed each specified field. -/
def satisfies (c : Constraint) (e : InstanceType) : Bool :=
  archOk c.arch e.arch && atLeast c.mem e.mem && atLeast c.cpuCores e.cpuCores &&
    atLeast c.cpuPower e.cpuPower

/-- Modelled from the spec: the selector's ranking is missing; lowest cost metric
(cpu-power) first, ties broken by smallest memory. -/
def cheaper (a b : InstanceType) : Bool :=
  decide (a.cpuPower < b.cpuPower) || (decide (a.cpuPower = b.cpuPower) && decide (a.mem < b.mem))

/-- Cheapest entry of a list, the earliest one among equals. -/
def cheapest : InstanceType → List InstanceType → InstanceType
  | best, [] => best
  | best, e :: rest => cheapest (if cheaper e best then e else best) rest

/-- Modelled from the spec: the function `select(constraint, catalog)` of the
HardwareSelector is missing; filter the catalog, fail with `NoMatchingHardware`
when nothing survives, otherwise return the cheapest survivor's type name with
that entry's own hardware values. -/
def select (c : Constraint) (catalog : List InstanceType) :
    Except Error (String × HardwareCharacteristics) :=
  match catalog.filter (satisfies c) with
  | [] => .error Error.NoMatchingHardware
  | e :: rest =>
    let chosen := cheapest e rest
    .ok (chosen.name, chosen.hardware)

/-- Modelled from the spec: the type of image metadata records is missing; an
image has an id, a series, an architecture and a region. -/
structure ImageSpec where
  id : String
  series : String
  arch : String
  region : String
deriving DecidableEq, Repr

/-- Modelled from the spec: the metadata source type is missing; a base URL and
a priority, the position in the list of sources deciding the lookup order. -/
structure MetadataSource where
  baseURL : String
  priority : Nat
deriving DecidableEq, Repr

/-- Modelled from the spec: the lookup parameters of validation are missing;
series, optional architecture, region, endpoint and the ordered sources. -/
structure ValidateParams where
  series : String
  arch : Option String
  region : String
  endpoint : String
  sources : List MetadataSource
deriving DecidableEq, Repr

/-- Modelled from the spec: the validator's filter is missing; an image matches a
request on series, region and, if specified, architecture. -/
def imageMatches (p : ValidateParams) (i : ImageSpec) : Bool :=
  decide (i.series = p.series) && decide (i.region = p.region) && archOk p.arch i.arch

/-- Lexicographic comparison of character sequences by code point (the order of
Go string comparison). -/
def leChars : List Char → List Char → Bool
  | [], _ => true
  | _ :: _, [] => false
  | a :: as, b :: bs =>
    decide (a.toNat < b.toNat) || (decide (a.toNat = b.toNat) && leChars as bs)

/-- Order on ids used for sorting. -/
def idLe (a b : String) : Bool := leChars a.data b.data

/-- Strict version of `idLe`. -/
def idLt (a b : String) : Bool := idLe a b && !decide (a = b)

/-- Insertion of an id into a sorted, duplicate-free list. -/
def insertId (a : String) : List String → List String
  | [] => [a]
  | b :: rest =>
    if a = b then b :: rest
    else if idLe a b then a :: b :: rest
    else b :: insertId a rest

/-- Sorted, duplicate-free list of the given ids. -/
def sortIds : List String → List String
  | [] => []
  | a :: rest => insertId a (sortIds rest)

/-- Modelled from the spec: the validator's result for one candidate list is
missing; the ids of the candidates that match the request, sorted and without
duplicates. -/
def matchingIds (p : ValidateParams) (candidates : List ImageSpec) : List String :=
  sortIds ((candidates.filter (imageMatches p)).map ImageSpec.id)

/-- Modelled from the spec: the validator's walk over the sources is missing; in
priority order, a failed fetch is surfaced, the first source with a match wins,
and no match anywhere is `NoMatchingImages`. -/
def validateFrom (fetch : MetadataSource → Except Error (List ImageSpec)) (p : ValidateParams) :
    List MetadataSource → Except Error (List String)
  | [] => .error Error.NoMatchingImages
  | src :: rest =>
    match fetch src with
    | .error e => .error e
    | .ok candidates =>
      match matchingIds p candidates with
      | [] => validateFrom fetch p rest
      | id :: ids => .ok (id :: ids)

/-- Modelled from the spec: the function `validate(params)` of the
MetadataResolver is missing; it fetches each source's index in priority order,
stops at the first source with at least one match, returns the matching ids
sorted and deduplicated, and fails with `NoMatchingImages` if no source yields a
match. `fetch` is the external fetch of a source's candidate image list. -/
def validate (fetch : MetadataSource → Except Error (List ImageSpec)) (p : ValidateParams) :
    Except Error (List String) :=
  validateFrom fetch p p.sources

/-- Modelled from the spec: the type `instance.Id` is missing; an identifier the
backend assigns to an instance. -/
abbrev InstanceId := String

/-- Modelled from the spec: the type `provider.BootstrapState` is missing; an
ordered sequence of instance ids and an ordered sequence of hardware
characteristics, index-aligned with it. -/
structure BootstrapState where
  stateInstances : List InstanceId
  characteristics : List HardwareCharacteristics
deriving DecidableEq, Repr

/-- The store's invariant: both sequences have the same length. -/
def BootstrapState.aligned (s : BootstrapState) : Bool :=
  decide (s.stateInstances.length = s.characteristics.length)

/-- Modelled from the spec: the storage type is missing; durable storage as far
as the state store uses it is the content of the well-known key, `none` when no
record exists. -/
structure Storage where
  state : Option BootstrapState
deriving DecidableEq, Repr

/-- Modelled from the spec: the function `save(state)` of the BootstrapStateStore
is missing; it writes the state at the well-known key, overwriting any prior
value, and rejects a state that violates the invariant. -/
def save (st : Storage) (s : BootstrapState) : Except Error Storage :=
  if s.aligned then .ok { st with state := some s } else .error Error.CorruptState

/-- Modelled from the spec: the function `load()` of the BootstrapStateStore
(`provider.LoadState`) is missing; it fails with `NotBootstrapped` when no record
exists and with `CorruptState` when the record violates the invariant. -/
def load (st : Storage) : Except Error BootstrapState :=
  match st.state with
  | none => .error Error.NotBootstrapped
  | some s => if s.aligned then .ok s else .error Error.CorruptState

/-- Modelled from the spec: the type `instance.Instance` is missing; a running
instance has an id and the hardware it was given. -/
structure Instance where
  id : InstanceId
  hardware : HardwareCharacteristics
deriving DecidableEq, Repr

/-- Modelled from the spec: the cloud backend and the metadata fetch are external
collaborators, all fallible: `listInstanceTypes(region)`, `launchInstance`
(given the instances already running, an instance type and an image id),
`terminateInstances` and the fetch of a metadata source's index. -/
structure Backend where
  listInstanceTypes : String → Except Error (List InstanceType)
  launchInstance : List Instance → String → String → Except Error InstanceId
  terminateInstances : List InstanceId → Except Error Unit
  fetch : MetadataSource → Except Error (List ImageSpec)

/-- Modelled from the spec: the environment type is missing; its configuration
(region, default series, endpoint, metadata sources), its durable storage and
the instances the backend reports for it. -/
structure Environ where
  region : String
  series : String
  endpoint : String
  sources : List MetadataSource
  storage : Storage
  running : List Instance
deriving DecidableEq, Repr

/-- Modelled from the spec: the method `AllInstances` of an environment is
missing; the instances the backend reports as running. -/
def Environ.AllInstances (env : Environ) : List Instance := env.running

/-- Lookup parameters an environment uses for a constraint. -/
def Environ.lookupParams (env : Environ) (c : Constraint) : ValidateParams :=
  ⟨env.series, c.arch, env.region, env.endpoint, env.sources⟩

/-- Modelled from the spec: the body of `Bootstrap` is missing; after the legality
check it resolves hardware, resolves an image, launches, and saves a state with
exactly the launched instance. -/
def bootstrapFresh (b : Backend) (env : Environ) (c : Constraint) : Except Error Environ :=
  match b.listInstanceTypes env.region with
  | .error e => .error e
  | .ok catalog =>
    match select c catalog with
    | .error e => .error e
    | .ok (instanceType, hardware) =>
      match validate b.fetch (env.lookupParams c) with
      | .error e => .error e
      | .ok [] => .error Error.NoMatchingImages
      | .ok (imageId :: _) =>
        match b.launchInstance env.running instanceType imageId with
        | .error e => .error e
        | .ok id =>
          match save env.storage ⟨[id], [hardware]⟩ with
          | .error e => .error e
          | .ok storage =>
            .ok { env with storage := storage, running := env.running ++ [⟨id, hardware⟩] }

/-- Modelled from the spec: the transition `Bootstrap(constraints)` of the
ProvisioningOrchestrator (`bootstrap.Bootstrap`) is missing; it is only legal
from Unbootstrapped, resolves hardware and a bootable image, launches through
the backend and on success saves a state with exactly one instance; on failure
the environment is left as it was. The cloud-init payload and the address
classification do not touch the state store and are left out. -/
def Bootstrap (b : Backend) (env : Environ) (c : Constraint) : Except Error Environ :=
  match load env.storage with
  | .ok _ => .error Error.AlreadyBootstrapped
  | .error Error.NotBootstrapped => bootstrapFresh b env c
  | .error e => .error e

/-- Modelled from the spec: the transition `Destroy(instances)` of the
ProvisioningOrchestrator is missing; it terminates the given instances through
the backend and, if all recorded bootstrap instances are included, removes the
BootstrapState record. -/
def Destroy (b : Backend) (env : Environ) (insts : List Instance) : Except Error Environ :=
  let ids := insts.map Instance.id
  match b.terminateInstances ids with
  | .error e => .error e
  | .ok _ =>
    let running := env.running.filter (fun i => !ids.contains i.id)
    match load env.storage with
    | .error _ => .ok { env with running := running }
    | .ok recorded =>
      if recorded.stateInstances.all (fun id => ids.contains id) then
        .ok { env with running := running, storage := { env.storage with state := none } }
      else
        .ok { env with running := running }

end Provisioning

end Juju

/-! ## Sample collaborators used to instantiate the theorems -/

namespace Juju

namespace CredentialManager

/-- A remote end that accepts the call and reports an error in the result. -/
def sampleFacade : FacadeCaller :=
  { log := [], respond := fun _ _ _ => (none, ⟨some ⟨"credential expired", "unauthorized"⟩⟩) }

end CredentialManager

namespace ApiServer

/-- Byte content used by the sample collaborators for a text. -/
def sampleBytes (s : String) : Bytes := s.data.map (fun c => c.toNat.toUInt8)

/-- A handler whose backup file is missing and whose only valid credential is
`"secret"`. -/
def sampleHandler : backupHandler :=
  { authenticate := fun r => if r.auth = "secret" then none else some "unauthorized"
    authError := fun w => (w.WriteHeader 401).Write (sampleBytes "unauthorized")
    osOpen := fun _ => .error "open example: no such file or directory"
    jsonMarshal := fun r => .ok (sampleBytes r.Error)
    quote := fun s => String.singleton (Char.ofNat 34) ++ s ++ String.singleton (Char.ofNat 34) }

end ApiServer

namespace Provisioning

/-- The catalog entry of the ec2 test data: one m1.small. -/
def m1small : InstanceType := ⟨"m1.small", "amd64", 1740, 1, 100⟩

/-- The environment-specific metadata source of the sample environment. -/
def sampleSource : MetadataSource := ⟨"https://control-bucket.example/images", 0⟩

/-- A mixed candidate list: three ids for series "precise" in region "test" (one
of them listed twice, out of order), one for another series and one for another
region. -/
def sampleImages : List ImageSpec :=
  [ ⟨"ami-00000035", "precise", "i386", "test"⟩,
    ⟨"ami-00000033", "precise", "amd64", "test"⟩,
    ⟨"ami-00000099", "quantal", "amd64", "test"⟩,
    ⟨"ami-00000034", "precise", "i386", "test"⟩,
    ⟨"ami-00000033", "precise", "amd64", "test"⟩,
    ⟨"ami-00000036", "precise", "amd64", "us-east-1"⟩ ]

/-- Fetch that serves `sampleImages` from `sampleSource` and fails elsewhere. -/
def sampleFetch : MetadataSource → Except Error (List ImageSpec) :=
  fun src => if src = sampleSource then .ok sampleImages else .error Error.BackendUnavailable

/-- The request of `TestValidateImageMetadata`: series "precise", region "test". -/
def sampleParams : ValidateParams :=
  ⟨"precise", none, "test", "https://ec2.endpoint.com", [sampleSource]⟩

/-- A backend that offers one m1.small, serves `sampleImages`, numbers the
instances it launches and terminates whatever it is asked to. -/
def sampleBackend : Backend :=
  { listInstanceTypes := fun _ => .ok [m1small]
    launchInstance := fun running _ _ => .ok (String.join ("i" :: running.map (fun _ => "-next")))
    terminateInstances := fun _ => .ok ()
    fetch := sampleFetch }

/-- An environment before its first bootstrap. -/
def sampleEnv : Environ :=
  ⟨"test", "precise", "https://ec2.endpoint.com", [sampleSource], ⟨none⟩, []⟩

/-- The empty constraint: every field a wildcard. -/
def noConstraint : Constraint := ⟨none, none, none, none⟩

/-- The sample environment after its bootstrap. -/
def sampleBootstrapped : Environ :=
  { sampleEnv with
    storage := ⟨some ⟨["i"], [m1small.hardware]⟩⟩
    running := [⟨"i", m1small.hardware⟩] }

end Provisioning

end Juju

/-! ## Theorems -/

namespace Juju

namespace CredentialManager

/-- C1: for every reason, `InvalidateModelCredential` makes exactly one facade
call, to "InvalidateModelCredential" with the reason unchanged; it returns nil
exactly when the call returned no error and the result carries none; a failed
call gives the traced call error, otherwise a non-nil result error gives the
traced result error. -/
theorem invalidateModelCredential_contract (c : Client) (reason : String) :
    let call : Call := ⟨"InvalidateModelCredential", reason⟩
    let resp := c.facade.respond c.facade.log call ⟨none⟩
    let out := c.InvalidateModelCredential reason
    out.1.facade.log = c.facade.log ++ [call] ∧
    out.1.facade.respond = c.facade.respond ∧
    (out.2 = none ↔ resp.1 = none ∧ resp.2.Error = none) ∧
    (∀ e, resp.1 = some e → out.2 = some (GoError.traced e)) ∧
    (∀ pe, resp.1 = none → resp.2.Error = some pe →
      out.2 = some (GoError.traced (GoError.result pe))) := by
  intro call resp out
  have hout : out = c.InvalidateModelCredential reason := rfl
  have hresp : resp = c.facade.respond c.facade.log call ⟨none⟩ := rfl
  simp only [Client.InvalidateModelCredential, FacadeCaller.FacadeCall] at hout
  rw [← hresp] at hout
  rcases hr : resp with ⟨err, res⟩
  rw [hr] at hout
  cases err with
  | some e => simp [hout, Trace, call]
  | none =>
    rcases res with ⟨pe⟩
    cases pe with
    | some pe => simp [hout, Trace, call]
    | none => simp [hout, call]

/-- Instance of C1: a result error comes back traced after one recorded call. -/
theorem invalidateModelCredential_contract_witness :
    ((Client.mk sampleFacade).InvalidateModelCredential "expired").2
      = some (GoError.traced (GoError.result ⟨"credential expired", "unauthorized"⟩)) :=
  (invalidateModelCredential_contract (Client.mk sampleFacade) "expired").2.2.2.2
    ⟨"credential expired", "unauthorized"⟩ rfl rfl

end CredentialManager

namespace ApiServer

/-- Reading a key right after setting it gives the value set. -/
theorem Header.get_set (h : Header) (k v : String) : Header.Get (Header.Set h k v) k = v := by
  have hnone : List.find? (fun kv => kv.1 == k) (h.filter (fun kv => kv.1 != k)) = none := by
    rw [List.find?_eq_none]
    intro kv hkv
    have := (List.mem_filter.mp hkv).2
    simpa using this
  simp [Header.Get, Header.Set, List.find?_append, hnone]

/-- What `sendError` leaves on a writer that has sent nothing: the given status,
a JSON content type, and the marshalled body, with three writer calls and no
file access. -/
theorem sendError_fresh (h : backupHandler) (s : World) (statusCode : Nat) (message : String)
    (hsent : s.w.sent = none) (hbody : s.w.body = []) :
    let out := (h.sendError s statusCode message).1
    (∃ hdr, out.w.sent = some ⟨statusCode, hdr⟩ ∧
      Header.Get hdr "Content-Type" = "application/json") ∧
    (∀ body, h.jsonMarshal ⟨message⟩ = .ok body →
      out.w.body = body ∧
      out.trace = s.trace ++ [Event.headerSet "Content-Type" "application/json",
        Event.writeHeader statusCode, Event.write body]) ∧
    (∀ err, h.jsonMarshal ⟨message⟩ = .error err →
      out.w.body = [] ∧
      out.trace = s.trace ++ [Event.headerSet "Content-Type" "application/json",
        Event.writeHeader statusCode]) := by
  intro out
  have hout : out = (h.sendError s statusCode message).1 := rfl
  simp only [backupHandler.sendError] at hout
  cases hm : h.jsonMarshal ⟨message⟩ with
  | error err =>
    rw [hm] at hout
    simp [hout, World.writeHeader, World.headerSet, ResponseWriter.WriteHeader, hsent, hbody,
      Header.get_set]
  | ok body =>
    rw [hm] at hout
    simp [hout, World.writeHeader, World.headerSet, World.write, ResponseWriter.WriteHeader,
      ResponseWriter.Write, hsent, hbody, Header.get_set]

/-- C2: an authenticated request whose method is not "POST" gets status 405,
Content-Type "application/json" and, as body, the JSON encoding of a
BackupResponse whose Error is "unsupported method: " followed by the quoted
method; the handler opens no file and copies no file bytes. -/
theorem serveHTTP_unsupported_method (h : backupHandler) (s : World) (r : Request)
    (hauth : h.authenticate r = none) (hmethod : r.Method ≠ "POST")
    (hsent : s.w.sent = none) (hbody : s.w.body = []) :
    let out := h.ServeHTTP s r
    let response : BackupResponse := ⟨"unsupported method: " ++ h.quote r.Method⟩
    (∃ hdr, out.w.sent = some ⟨405, hdr⟩ ∧
      Header.Get hdr "Content-Type" = "application/json") ∧
    (∀ body, h.jsonMarshal response = .ok body → out.w.body = body) ∧
    (∃ added, out.trace = s.trace ++ added ∧
      (∀ name, Event.osOpen name ∉ added) ∧ (∀ b, Event.ioCopy b ∉ added)) := by
  intro out response
  have hout : out = (h.sendError s StatusMethodNotAllowed
      ("unsupported method: " ++ h.quote r.Method)).1 := by
    show h.ServeHTTP s r = _
    simp [backupHandler.ServeHTTP, hauth, hmethod]
  have key := sendError_fresh h s StatusMethodNotAllowed
    ("unsupported method: " ++ h.quote r.Method) hsent hbody
  simp only at key
  rw [← hout] at key
  refine ⟨key.1, fun body hb => (key.2.1 body hb).1, ?_⟩
  cases hm : h.jsonMarshal ⟨"unsupported method: " ++ h.quote r.Method⟩ with
  | error err => exact ⟨_, (key.2.2 err hm).2, by simp, by simp⟩
  | ok body => exact ⟨_, (key.2.1 body hm).2, by simp, by simp⟩

/-- Instance of C2: a DELETE with the valid credential on a fresh writer. -/
theorem serveHTTP_unsupported_method_witness :
    (∃ hdr, (sampleHandler.ServeHTTP World.start ⟨"DELETE", "secret"⟩).w.sent = some ⟨405, hdr⟩ ∧
      Header.Get hdr "Content-Type" = "application/json") ∧
    (sampleHandler.ServeHTTP World.start ⟨"DELETE", "secret"⟩).w.body
      = sampleBytes ("unsupported method: " ++ sampleHandler.quote "DELETE") :=
  have key := serveHTTP_unsupported_method sampleHandler World.start ⟨"DELETE", "secret"⟩
    (by decide) (by decide) rfl rfl
  ⟨key.1, key.2.1 _ rfl⟩

/-- C9: when `authenticate` returns an error, whatever the method, the handler
only calls `authError` and returns: it writes no status 200, sets no
Content-Type "application/octet-stream", opens no file and copies no bytes. -/
theorem serveHTTP_auth_failure (h : backupHandler) (s : World) (r : Request) (err : String)
    (hauth : h.authenticate r = some err) :
    let out := h.ServeHTTP s r
    out.w = h.authError s.w ∧
    (∃ added, out.trace = s.trace ++ added ∧ added = [Event.authError] ∧
      Event.writeHeader StatusOK ∉ added ∧
      Event.headerSet "Content-Type" "application/octet-stream" ∉ added ∧
      (∀ name, Event.osOpen name ∉ added) ∧ (∀ b, Event.ioCopy b ∉ added) ∧
      (∀ b, Event.write b ∉ added)) := by
  intro out
  have hout : out = ⟨h.authError s.w, s.trace ++ [Event.authError]⟩ := by
    show h.ServeHTTP s r = _
    simp [backupHandler.ServeHTTP, hauth, World.authError]
  rw [hout]
  exact ⟨rfl, [Event.authError], rfl, rfl, by simp, by simp, by simp, by simp, by simp⟩

/-- Instance of C9: a POST with a wrong credential leaves only the 401 response
of the sample `authError`. -/
theorem serveHTTP_auth_failure_witness :
    (sampleHandler.ServeHTTP World.start ⟨"POST", "guess"⟩).w
      = sampleHandler.authError World.start.w ∧
    (sampleHandler.ServeHTTP World.start ⟨"POST", "guess"⟩).trace = [Event.authError] :=
  have key := serveHTTP_auth_failure sampleHandler World.start ⟨"POST", "guess"⟩ "unauthorized"
    (by decide)
  ⟨key.1, by
    obtain ⟨added, h1, h2, _⟩ := key.2
    rw [h1, h2]; rfl⟩

/-- C10 (what the code does): for an authenticated POST on a fresh writer whose
backup file cannot be opened, the status sent is 200 and the Content-Type sent is
"application/octet-stream", not 500 and "application/json"; only the body is the
JSON error. -/
theorem serveHTTP_open_failure_sends_200 (h : backupHandler) (auth openErr : String) :
    let h1 : backupHandler :=
      { h with authenticate := fun _ => none, osOpen := fun _ => .error openErr }
    let out := h1.ServeHTTP World.start ⟨"POST", auth⟩
    out.w.sent = some ⟨200, [("Content-Type", "application/octet-stream")]⟩ ∧
    (∀ hdr, out.w.sent ≠ some ⟨500, hdr⟩) ∧
    (∀ st hdr, out.w.sent = some ⟨st, hdr⟩ →
      Header.Get hdr "Content-Type" = "application/octet-stream") ∧
    (∀ body, h.jsonMarshal ⟨"backup failed"⟩ = .ok body → out.w.body = body) ∧
    Event.writeHeader StatusInternalServerError ∈ out.trace := by
  intro h1 out
  have hout : out = (h1.sendError
      (((World.start.headerSet "Content-Type" "application/octet-stream").writeHeader
        StatusOK).osOpen "example")
      StatusInternalServerError "backup failed").1 := by
    show h1.ServeHTTP World.start ⟨"POST", auth⟩ = _
    simp [backupHandler.ServeHTTP, h1]
  simp only [backupHandler.sendError] at hout
  cases hm : h.jsonMarshal ⟨"backup failed"⟩ with
  | error err =>
    have hm1 : h1.jsonMarshal ⟨"backup failed"⟩ = .error err := hm
    rw [hm1] at hout
    simp [hout, World.writeHeader, World.headerSet, World.osOpen, ResponseWriter.WriteHeader,
      World.start, ResponseWriter.fresh, Header.Set, Header.Get, StatusOK,
      StatusInternalServerError]
  | ok body =>
    have hm1 : h1.jsonMarshal ⟨"backup failed"⟩ = .ok body := hm
    rw [hm1] at hout
    simp [hout, World.writeHeader, World.headerSet, World.write, World.osOpen,
      ResponseWriter.WriteHeader, ResponseWriter.Write, World.start, ResponseWriter.fresh,
      Header.Set, Header.Get, StatusOK, StatusInternalServerError]

end ApiServer

namespace Ec2Test

/-- The loop of `CheckPackage` over a list of strings ends with `found` set
exactly when it was set before or the package occurs in the list. -/
theorem scanPackages_strs (pkg : String) (pkgs : List String) (found : Bool) :
    scanPackages pkg (pkgs.map Value.str) found = .ok (found || decide (pkg ∈ pkgs)) := by
  induction pkgs generalizing found with
  | nil => simp [scanPackages]
  | cons p rest ih =>
    simp only [List.map_cons, scanPackages, Value.toStr, ih]
    by_cases hp : p = pkg
    · simp [hp]
    · have hp2 : ¬ pkg = p := fun e => hp e.symm
      simp [hp, hp2]

/-- The loop of `CheckScripts` over a list of strings ends with `found` set
exactly when it was set before or the expression matches one of them. -/
theorem scanScripts_strs (re : String → Bool) (scripts : List String) (found : Bool) :
    scanScripts re (scripts.map Value.str) found = .ok (found || scripts.any re) := by
  induction scripts generalizing found with
  | nil => simp [scanScripts]
  | cons p rest ih =>
    simp only [List.map_cons, scanScripts, Value.toStr, ih]
    cases h : re p <;> simp [h]

/-- With a runcmd entry that is a list of strings and a pattern that compiles,
`CheckScripts` records a failure exactly when `match` differs from whether some
script matches. -/
theorem CheckScripts_present (compile : String → Option (String → Bool)) (x : Doc)
    (pattern : String) (matchWanted : Bool) (scripts : List String) (re : String → Bool)
    (hx : x.index "runcmd" = Value.seq (scripts.map Value.str))
    (hre : compile pattern = some re) :
    ∃ reports, CheckScripts compile x pattern matchWanted = .ok reports ∧
      (reports ≠ [] ↔ matchWanted ≠ scripts.any re) := by
  simp only [CheckScripts, hx, Value.isNil, Value.toSlice, MustCompile, hre, scanScripts_strs]
  cases matchWanted <;> cases scripts.any re <;> simp

/-- C7 (what the code does): on a document without a runcmd entry `CheckScripts`
records the failure "cloudinit has no entry for runcmd" whatever the pattern,
also when `match` is false and no script is expected. -/
theorem CheckScripts_no_runcmd_reports (compile : String → Option (String → Bool))
    (pattern : String) :
    CheckScripts compile [] pattern false = .ok [Report.noRuncmd] ∧
    CheckScripts compile [(Value.str "packages", Value.seq [Value.str "git"])] pattern false
      = .ok [Report.noRuncmd] := by
  constructor <;> simp [CheckScripts, Doc.index, Value.isNil]

/-- C8: for a document whose packages entry, when present, is a list of strings,
`CheckPackage` records a failure exactly when `match` differs from whether `pkg`
occurs in that list (a missing entry counting as the empty list), and records at
most one failure. -/
theorem CheckPackage_reports (x : Doc) (pkg : String) (matchWanted : Bool) (pkgs : List String)
    (hx : (x.index "packages" = Value.null ∧ pkgs = []) ∨
      x.index "packages" = Value.seq (pkgs.map Value.str)) :
    ∃ reports, CheckPackage x pkg matchWanted = .ok reports ∧
      (reports ≠ [] ↔ matchWanted ≠ decide (pkg ∈ pkgs)) ∧ reports.length ≤ 1 := by
  rcases hx with ⟨hnull, hempty⟩ | hseq
  · subst hempty
    simp only [CheckPackage, hnull, Value.isNil]
    cases matchWanted <;> simp
  · simp only [CheckPackage, hseq, Value.isNil, Value.toSlice, scanPackages_strs]
    cases matchWanted <;> by_cases hmem : pkg ∈ pkgs <;> simp [hmem]

/-- Instance of C8: "zookeeperd" is absent from a packages list holding "git",
so with `match` false nothing is recorded. -/
theorem CheckPackage_reports_witness :
    ∃ reports, CheckPackage [(Value.str "packages", Value.seq [Value.str "git"])]
        "zookeeperd" false = .ok reports ∧
      (reports ≠ [] ↔ false ≠ decide ("zookeeperd" ∈ ["git"])) ∧ reports.length ≤ 1 :=
  CheckPackage_reports [(Value.str "packages", Value.seq [Value.str "git"])] "zookeeperd" false
    ["git"] (Or.inr (by simp [Doc.index]))

end Ec2Test

namespace Provisioning

theorem char_lt_iff (a b : Char) : a < b ↔ a.toNat < b.toNat := Iff.rfl

theorem char_eq_iff (a b : Char) : a = b ↔ a.toNat = b.toNat := by
  constructor
  · intro h; rw [h]
  · intro h
    apply Char.ext
    apply UInt32.ext
    exact h

theorem lex_cons_cons (a b : Char) (as bs : List Char) :
    a :: as < b :: bs ↔ a < b ∨ (a = b ∧ as < bs) := by
  constructor
  · intro h
    cases h with
    | cons h => exact Or.inr ⟨rfl, h⟩
    | rel h => exact Or.inl h
  · rintro (h | ⟨rfl, h⟩)
    · exact List.Lex.rel h
    · exact List.Lex.cons h

theorem leChars_iff (as bs : List Char) : leChars as bs = true ↔ as ≤ bs := by
  induction as generalizing bs with
  | nil => simp [leChars, List.nil_le]
  | cons a as ih =>
    cases bs with
    | nil =>
      simp only [leChars]
      constructor
      · intro h; cases h
      · intro h
        exact absurd (List.nil_lt_cons a as) (not_lt.mpr h)
    | cons b bs =>
      simp only [leChars, Bool.or_eq_true, Bool.and_eq_true, decide_eq_true_eq, ih,
        ← char_lt_iff, ← char_eq_iff]
      rw [show a :: as ≤ b :: bs ↔ ¬ (b :: bs < a :: as) from not_lt.symm, lex_cons_cons]
      rcases lt_trichotomy a b with h | h | h
      · have h1 : ¬ b < a := not_lt.mpr h.le
        have h2 : ¬ b = a := fun e => (ne_of_lt h) e.symm
        simp [h, h1, h2]
      · subst h
        simp
      · have h1 : ¬ a < b := not_lt.mpr h.le
        have h2 : ¬ a = b := fun e => (ne_of_lt h) e.symm
        simp [h, h1, h2]

theorem idLe_iff (a b : String) : idLe a b = true ↔ a ≤ b := by
  rw [String.le_iff_toList_le]
  exact leChars_iff a.data b.data

theorem mem_insertId (a x : String) (l : List String) :
    x ∈ insertId a l ↔ x = a ∨ x ∈ l := by
  induction l with
  | nil => simp [insertId]
  | cons b rest ih =>
    simp only [insertId]
    split_ifs with h1 h2
    · subst h1; simp
    · simp
    · simp only [List.mem_cons, ih]
      tauto

theorem sorted_insertId (a : String) (l : List String) (hl : l.Pairwise (· < ·)) :
    (insertId a l).Pairwise (· < ·) := by
  induction l with
  | nil => simp [insertId]
  | cons b rest ih =>
    rw [List.pairwise_cons] at hl
    simp only [insertId]
    split_ifs with h1 h2
    · exact List.pairwise_cons.mpr hl
    · have hab : a < b := lt_of_le_of_ne ((idLe_iff a b).mp h2) h1
      refine List.pairwise_cons.mpr ⟨?_, List.pairwise_cons.mpr hl⟩
      intro x hx
      rcases List.mem_cons.mp hx with rfl | hx
      · exact hab
      · exact lt_trans hab (hl.1 x hx)
    · have hba : b < a := by
        have : ¬ a ≤ b := fun h => h2 ((idLe_iff a b).mpr h)
        exact not_le.mp this
      refine List.pairwise_cons.mpr ⟨?_, ih hl.2⟩
      intro x hx
      rcases (mem_insertId a x rest).mp hx with rfl | hx
      · exact hba
      · exact hl.1 x hx

theorem mem_sortIds (x : String) (l : List String) : x ∈ sortIds l ↔ x ∈ l := by
  induction l with
  | nil => simp [sortIds]
  | cons a rest ih => simp [sortIds, mem_insertId, ih]

theorem sorted_sortIds (l : List String) : (sortIds l).Pairwise (· < ·) := by
  induction l with
  | nil => simp [sortIds]
  | cons a rest ih => exact sorted_insertId a _ ih

theorem imageMatches_iff (p : ValidateParams) (i : ImageSpec) :
    imageMatches p i = true ↔
      i.series = p.series ∧ i.region = p.region ∧ ∀ a, p.arch = some a → i.arch = a := by
  rcases p with ⟨series, arch, region, endpoint, sources⟩
  cases arch <;> simp [imageMatches, archOk, and_assoc]

theorem mem_matchingIds (p : ValidateParams) (candidates : List ImageSpec) (id : String) :
    id ∈ matchingIds p candidates ↔
      ∃ i ∈ candidates, i.id = id ∧ i.series = p.series ∧ i.region = p.region ∧
        ∀ a, p.arch = some a → i.arch = a := by
  simp only [matchingIds, mem_sortIds, List.mem_map, List.mem_filter, imageMatches_iff]
  constructor
  · rintro ⟨i, ⟨hi, hm⟩, rfl⟩
    exact ⟨i, hi, rfl, hm⟩
  · rintro ⟨i, hi, rfl, hm⟩
    exact ⟨i, ⟨hi, hm⟩, rfl⟩

theorem validateFrom_ok (fetch : MetadataSource → Except Error (List ImageSpec))
    (p : ValidateParams) (sources : List MetadataSource) (ids : List String)
    (h : validateFrom fetch p sources = .ok ids) :
    ∃ src ∈ sources, ∃ candidates, fetch src = .ok candidates ∧
      ids = matchingIds p candidates ∧ ids ≠ [] := by
  induction sources with
  | nil => simp [validateFrom] at h
  | cons src rest ih =>
    simp only [validateFrom] at h
    cases hf : fetch src with
    | error e => simp [hf] at h
    | ok candidates =>
      simp only [hf] at h
      cases hm : matchingIds p candidates with
      | nil =>
        simp only [hm] at h
        obtain ⟨s, hs, c, hc⟩ := ih h
        exact ⟨s, List.mem_cons_of_mem _ hs, c, hc⟩
      | cons id0 ids0 =>
        simp only [hm] at h
        injection h with h
        subst h
        exact ⟨src, List.mem_cons_self _ _, candidates, hf, hm.symm, by simp⟩

theorem cheapest_mem (best : InstanceType) (rest : List InstanceType) :
    cheapest best rest ∈ best :: rest := by
  induction rest generalizing best with
  | nil => simp [cheapest]
  | cons e rest ih =>
    simp only [cheapest]
    have := ih (if cheaper e best then e else best)
    split_ifs at this ⊢ with hc
    · exact List.mem_cons_of_mem _ this
    · rcases List.mem_cons.mp this with h | h
      · rw [h]; exact List.mem_cons_self _ _
      · exact List.mem_cons_of_mem _ (List.mem_cons_of_mem _ h)

theorem atLeast_iff (o : Option Nat) (n : Nat) : atLeast o n = true ↔ ∀ m, o = some m → m ≤ n := by
  cases o <;> simp [atLeast]

theorem archOk_iff (o : Option String) (s : String) :
    archOk o s = true ↔ ∀ a, o = some a → s = a := by
  cases o <;> simp [archOk]

theorem satisfies_iff (c : Constraint) (e : InstanceType) :
    satisfies c e = true ↔
      (∀ a, c.arch = some a → e.arch = a) ∧ (∀ m, c.mem = some m → m ≤ e.mem) ∧
      (∀ n, c.cpuCores = some n → n ≤ e.cpuCores) ∧
      (∀ n, c.cpuPower = some n → n ≤ e.cpuPower) := by
  simp only [satisfies, Bool.and_eq_true, atLeast_iff, archOk_iff, and_assoc]

theorem select_fails_iff (c : Constraint) (catalog : List InstanceType) :
    select c catalog = .error Error.NoMatchingHardware ↔ ∀ e ∈ catalog, satisfies c e = false := by
  simp only [select]
  cases hf : catalog.filter (satisfies c) with
  | nil =>
    simp only [true_iff]
    intro e he
    have := List.filter_eq_nil_iff.mp hf e he
    simpa using this
  | cons e rest =>
    simp only [reduceCtorEq, false_iff]
    intro h
    have hmem : e ∈ catalog.filter (satisfies c) := by rw [hf]; exact List.mem_cons_self _ _
    obtain ⟨hin, hsat⟩ := List.mem_filter.mp hmem
    rw [h e hin] at hsat
    cases hsat

/-- C3: for every constraint and catalog, `select` either fails with
NoMatchingHardware or returns an entry of the catalog whose architecture equals
the constraint's when specified and whose memory, cpu-cores and cpu-power are at
least the specified fields; the returned hardware is the entry's own (mem=1024
against the single m1.small gives arch=amd64, mem=1740, cpu-cores=1,
cpu-power=100). -/
theorem select_contract (c : Constraint) (catalog : List InstanceType) :
    (select c catalog = .error Error.NoMatchingHardware ∨
      ∃ e ∈ catalog, select c catalog = .ok (e.name, ⟨e.arch, e.mem, e.cpuCores, e.cpuPower⟩) ∧
        (∀ a, c.arch = some a → e.arch = a) ∧ (∀ m, c.mem = some m → m ≤ e.mem) ∧
        (∀ n, c.cpuCores = some n → n ≤ e.cpuCores) ∧
        (∀ n, c.cpuPower = some n → n ≤ e.cpuPower)) ∧
    select ⟨none, some 1024, none, none⟩ [m1small] = .ok ("m1.small", ⟨"amd64", 1740, 1, 100⟩) := by
  refine ⟨?_, rfl⟩
  simp only [select]
  cases hf : catalog.filter (satisfies c) with
  | nil => exact Or.inl rfl
  | cons e rest =>
    right
    have hmem : cheapest e rest ∈ catalog.filter (satisfies c) := by
      rw [hf]; exact cheapest_mem e rest
    obtain ⟨hin, hsat⟩ := List.mem_filter.mp hmem
    exact ⟨cheapest e rest, hin, rfl, (satisfies_iff c _).mp hsat⟩

/-- Instance of C3: a constraint no entry meets fails, one the m1.small meets
returns the m1.small. -/
theorem select_contract_witness :
    select ⟨some "amd64", some 1024, some 1, none⟩ [m1small]
      = .ok ("m1.small", ⟨"amd64", 1740, 1, 100⟩) ∧
    select ⟨none, some 4096, none, none⟩ [m1small] = .error Error.NoMatchingHardware :=
  ⟨by
    rcases (select_contract ⟨some "amd64", some 1024, some 1, none⟩ [m1small]).1 with h | h
    · exact Except.noConfusion h
    · obtain ⟨e, he, hsel, _⟩ := h
      rw [List.mem_singleton.mp he] at hsel
      exact hsel,
   rfl⟩

/-- With a single source whose fetch succeeds, `validate` returns the sorted
matching ids, or fails with NoMatchingImages when nothing matches. -/
theorem validate_single (fetch : MetadataSource → Except Error (List ImageSpec))
    (p : ValidateParams) (src : MetadataSource) (candidates : List ImageSpec)
    (hsrc : p.sources = [src]) (hfetch : fetch src = .ok candidates) :
    validate fetch p =
      if matchingIds p candidates = [] then .error Error.NoMatchingImages
      else .ok (matchingIds p candidates) := by
  simp only [validate, hsrc, validateFrom, hfetch]
  cases hm : matchingIds p candidates <;> simp

/-- C4: ids returned by `validate` are exactly the ids of the candidates (of the
source that answered) matching the request on series, region and, if specified,
architecture, so none has another series; they are strictly increasing, hence
sorted and without duplicates; and a single mixed candidate list with a match
does give its matching subset (series "precise" in region "test" yields
ami-00000033, ami-00000034, ami-00000035). -/
theorem validate_matching_sorted (fetch : MetadataSource → Except Error (List ImageSpec))
    (p : ValidateParams) :
    (∀ ids, validate fetch p = .ok ids →
      (∃ src ∈ p.sources, ∃ candidates, fetch src = .ok candidates ∧
        ∀ id, id ∈ ids ↔
          ∃ i ∈ candidates, i.id = id ∧ i.series = p.series ∧ i.region = p.region ∧
            ∀ a, p.arch = some a → i.arch = a) ∧
      ids.Pairwise (fun a b => a < b) ∧ ids.Nodup) ∧
    (∀ src candidates, p.sources = [src] → fetch src = .ok candidates →
      (∃ i ∈ candidates, imageMatches p i = true) →
      validate fetch p = .ok (matchingIds p candidates)) ∧
    validate sampleFetch sampleParams = .ok ["ami-00000033", "ami-00000034", "ami-00000035"] := by
  refine ⟨?_, ?_, rfl⟩
  · intro ids hok
    obtain ⟨src, hsrc, candidates, hfetch, hids, _⟩ := validateFrom_ok fetch p p.sources ids hok
    have hsorted : ids.Pairwise (fun a b => a < b) := by
      rw [hids]; exact sorted_sortIds _
    refine ⟨⟨src, hsrc, candidates, hfetch, ?_⟩, hsorted, ?_⟩
    · intro id
      rw [hids]
      exact mem_matchingIds p candidates id
    · exact hsorted.imp (fun h => ne_of_lt h)
  · intro src candidates hsrc hfetch hex
    rw [validate_single fetch p src candidates hsrc hfetch]
    have hne : matchingIds p candidates ≠ [] := by
      obtain ⟨i, hi, hm⟩ := hex
      have hmem : i.id ∈ matchingIds p candidates :=
        (mem_matchingIds p candidates i.id).mpr ⟨i, hi, rfl, (imageMatches_iff p i).mp hm⟩
      exact List.ne_nil_of_mem hmem
    simp [hne]

/-- Instance of C4: the ids returned for the sample request are increasing and
each belongs to a candidate of series "precise". -/
theorem validate_matching_sorted_witness :
    ["ami-00000033", "ami-00000034", "ami-00000035"].Pairwise (fun a b : String => a < b) ∧
    ∀ id ∈ ["ami-00000033", "ami-00000034", "ami-00000035"],
      ∃ i ∈ sampleImages, i.id = id ∧ i.series = "precise" :=
  have key := (validate_matching_sorted sampleFetch sampleParams).1
    ["ami-00000033", "ami-00000034", "ami-00000035"] rfl
  ⟨key.2.1, by
    obtain ⟨src, hsrc, candidates, hfetch, hmem⟩ := key.1
    have hs : src = sampleSource := List.mem_singleton.mp hsrc
    subst hs
    have hc : candidates = sampleImages := by
      have : (Except.ok sampleImages : Except Error (List ImageSpec)) = .ok candidates := hfetch
      injection this with h
      exact h.symm
    subst hc
    intro id hid
    obtain ⟨i, hi, h1, h2, _⟩ := (hmem id).mp hid
    exact ⟨i, hi, h1, h2⟩⟩

/-- A successful `Bootstrap` adds one running instance and leaves a state record
holding exactly that instance and its hardware. -/
theorem bootstrap_saves_launched (b : Backend) (env env1 : Environ) (c : Constraint)
    (hfresh : load env.storage = .error Error.NotBootstrapped)
    (hok : Bootstrap b env c = .ok env1) :
    ∃ inst : Instance,
      env1.AllInstances = env.AllInstances ++ [inst] ∧
      load env1.storage = .ok ⟨[inst.id], [inst.hardware]⟩ := by
  simp only [Bootstrap, hfresh, bootstrapFresh] at hok
  cases h1 : b.listInstanceTypes env.region with
  | error e => simp [h1] at hok
  | ok catalog =>
    simp only [h1] at hok
    cases h2 : select c catalog with
    | error e => simp [h2] at hok
    | ok sel =>
      obtain ⟨instanceType, hardware⟩ := sel
      simp only [h2] at hok
      cases h3 : validate b.fetch (env.lookupParams c) with
      | error e => simp [h3] at hok
      | ok ids =>
        cases ids with
        | nil => simp [h3] at hok
        | cons imageId rest =>
          simp only [h3] at hok
          cases h4 : b.launchInstance env.running instanceType imageId with
          | error e => simp [h4] at hok
          | ok id =>
            simp only [h4, save, BootstrapState.aligned] at hok
            simp at hok
            subst hok
            exact ⟨⟨id, hardware⟩, rfl, by simp [load, BootstrapState.aligned]⟩

/-- C5: after a successful `Bootstrap` on an unbootstrapped environment `load`
succeeds with a state that has exactly one state instance, the id of the single
running instance, and a characteristics sequence of the same length whose entry
0 is the hardware of that instance. -/
theorem bootstrap_then_load (b : Backend) (env env1 : Environ) (c : Constraint)
    (hfresh : load env.storage = .error Error.NotBootstrapped)
    (hnone : env.AllInstances = [])
    (hok : Bootstrap b env c = .ok env1) :
    ∃ (inst : Instance) (state : BootstrapState),
      env1.AllInstances = [inst] ∧
      load env1.storage = .ok state ∧
      state.stateInstances = [inst.id] ∧
      state.characteristics.length = state.stateInstances.length ∧
      state.characteristics[0]? = some inst.hardware := by
  obtain ⟨inst, hrun, hload⟩ := bootstrap_saves_launched b env env1 c hfresh hok
  rw [hnone] at hrun
  exact ⟨inst, ⟨[inst.id], [inst.hardware]⟩, hrun, hload, rfl, rfl, rfl⟩

/-- Instance of C5: bootstrapping the sample environment on the sample backend
succeeds and records the one m1.small it launched. -/
theorem bootstrap_then_load_witness :
    Bootstrap sampleBackend sampleEnv noConstraint = .ok sampleBootstrapped ∧
    ∃ (inst : Instance) (state : BootstrapState),
      sampleBootstrapped.AllInstances = [inst] ∧
      load sampleBootstrapped.storage = .ok state ∧
      state.stateInstances = [inst.id] ∧
      state.characteristics.length = state.stateInstances.length ∧
      state.characteristics[0]? = some inst.hardware :=
  ⟨rfl, bootstrap_then_load sampleBackend sampleEnv sampleBootstrapped noConstraint rfl rfl rfl⟩

/-- C6: for a bootstrapped environment, a `Destroy` whose instances include all
recorded bootstrap instances, and whose termination the backend carries out,
succeeds, removes the state record, and a later `load` fails with
NotBootstrapped. -/
theorem destroy_then_load (b : Backend) (env : Environ) (insts : List Instance)
    (recorded : BootstrapState)
    (hboot : load env.storage = .ok recorded)
    (hall : ∀ id ∈ recorded.stateInstances, id ∈ insts.map Instance.id)
    (hterm : b.terminateInstances (insts.map Instance.id) = .ok ()) :
    ∃ env1, Destroy b env insts = .ok env1 ∧
      env1.storage.state = none ∧
      load env1.storage = .error Error.NotBootstrapped := by
  have hcond : recorded.stateInstances.all (fun id => (insts.map Instance.id).contains id)
      = true := by
    rw [List.all_eq_true]
    intro id hid
    have hin := hall id hid
    simpa using hin
  have hrun : Destroy b env insts = .ok
      { env with
        running := env.running.filter (fun i => !(insts.map Instance.id).contains i.id)
        storage := { env.storage with state := none } } := by
    simp only [Destroy, hterm, hboot, hcond, if_true]
  exact ⟨_, hrun, rfl, rfl⟩

/-- Instance of C6: destroying the one instance of the bootstrapped sample
environment leaves no record behind. -/
theorem destroy_then_load_witness :
    load sampleBootstrapped.storage = .ok ⟨["i"], [m1small.hardware]⟩ ∧
    ∃ env1, Destroy sampleBackend sampleBootstrapped sampleBootstrapped.running = .ok env1 ∧
      env1.storage.state = none ∧
      load env1.storage = .error Error.NotBootstrapped :=
  ⟨rfl, destroy_then_load sampleBackend sampleBootstrapped sampleBootstrapped.running
    ⟨["i"], [m1small.hardware]⟩ rfl (by decide) rfl⟩

end Provisioning

end Juju
